import Mathlib

/-!
Verification of `axlearn/common/compiler_options.py`.

The module is embedded shallowly: Python strings become Lean `String`
(reasoned about through their `List Char` data), Python `dict` (insertion
ordered) becomes an association list `List (String × OptVal)` where
`update` replaces in place on key collision and appends otherwise, and
Python exceptions become an explicit `Except Err` result.

The regular expression `(tpu-)?v.+-\d+` used by `infer_tpu_type` is
embedded as an executable matcher: `.` matches any character except a
newline, and `\d` is modelled as a decimal digit (all inputs of interest
are ASCII). `str.replace("tpu-", "")` is embedded as a single left-to-right
scan removing every occurrence of the pattern, which is Python's
semantics for `str.replace` with an empty replacement.
-/

set_option autoImplicit false

namespace CompilerOptions

/-- Values an XLA option can take: Python `bool`, `str` or `int`. -/
inductive OptVal where
  | b : Bool → OptVal
  | s : String → OptVal
  | i : Int → OptVal
  deriving DecidableEq, Repr

/-- The exceptions raised by the module: `NotImplementedError(backend)`,
`NotTpuError(msg)` (a `ValueError` subclass) and plain `ValueError(msg)`. -/
inductive Err where
  | notImplemented : String → Err
  | notTpu : String → Err
  | valueError : String → Err
  deriving DecidableEq, Repr

/-- Matcher for the `.+-\d+` tail of the regex `v.+-\d+`: the input is
`m ++ '-' :: d` where `m` is a possibly empty run of non-newline
characters and `d` is a nonempty run of digits. -/
def restM : List Char → Bool
  | [] => false
  | c :: rest =>
    (c == '-' && !rest.isEmpty && rest.all (fun d => d.isDigit)) ||
    (c != '\n' && restM rest)

/-- Matcher for `v.+-\d+` (full match): a leading `v`, then a nonempty
run of non-newline characters, a hyphen, and a nonempty run of digits. -/
def vBodyMatch : List Char → Bool
  | 'v' :: c :: rest => c != '\n' && restM rest
  | _ => false

/-- Matcher for the full regex `(tpu-)?v.+-\d+` of `infer_tpu_type`. -/
def tpuTypeRegexMatch (l : List Char) : Bool :=
  vBodyMatch l ||
    (match l with
     | 't' :: 'p' :: 'u' :: '-' :: rest => vBodyMatch rest
     | _ => false)

/-- Embedding of `instance_type.replace("tpu-", "")`: one left-to-right
scan deleting every (non-overlapping) occurrence of `tpu-`. -/
def pyReplaceTpu : List Char → List Char
  | 't' :: 'p' :: 'u' :: '-' :: rest => pyReplaceTpu rest
  | c :: rest => c :: pyReplaceTpu rest
  | [] => []

/-- Embedding of `infer_tpu_type`: validate against `(tpu-)?v.+-\d+`
(and non-emptiness), then return the input with `tpu-` removed. -/
def infer_tpu_type (instance_type : String) : Except Err String :=
  if instance_type.data.isEmpty || !(tpuTypeRegexMatch instance_type.data) then
    .error (.notTpu ("Invalid TPU instance: " ++ instance_type))
  else
    .ok ⟨pyReplaceTpu instance_type.data⟩

/-- Embedding of `tpu_type.rsplit("-", 1)[0]`: the part before the last
hyphen, or the whole string if it contains no hyphen. -/
def beforeLastHyphen : List Char → List Char
  | [] => []
  | c :: rest =>
    if rest.contains '-' then c :: beforeLastHyphen rest
    else if c = '-' then []
    else c :: rest

/-- The module constant `_TPU_VERSIONS`. -/
def _TPU_VERSIONS : List String := ["v3", "v4", "v5litepod", "v5p", "v6e"]

/-- A single-quote character, used when rendering the version tuple the
way Python's f-string formats `_TPU_VERSIONS`. -/
def squote : String := String.singleton (Char.ofNat 39)

/-- Python's `repr` of a tuple of strings, e.g.
`('v3', 'v4', 'v5litepod', 'v5p', 'v6e')`. -/
def pyTupleRepr (xs : List String) : String :=
  "(" ++ String.intercalate ", " (xs.map (fun x => squote ++ x ++ squote)) ++ ")"

/-- Embedding of `infer_tpu_version`: re-validate via `infer_tpu_type`,
split at the last hyphen, and check membership in `_TPU_VERSIONS`. -/
def infer_tpu_version (tpu_type : String) : Except Err String :=
  match infer_tpu_type tpu_type with
  | .error e => .error e
  | .ok t =>
    let tpu_version : String := ⟨beforeLastHyphen t.data⟩
    if _TPU_VERSIONS.contains tpu_version then
      .ok tpu_version
    else
      .error (.valueError ("Unknown TPU version " ++ tpu_version ++
        ". Expected one of " ++ pyTupleRepr _TPU_VERSIONS))

/-- `dict` update for a single key: replace in place if the key is
present, append otherwise (Python insertion-order semantics). -/
def dictInsert (d : List (String × OptVal)) (k : String) (v : OptVal) :
    List (String × OptVal) :=
  if d.any (fun p => p.1 == k) then
    d.map (fun p => if p.1 == k then (k, v) else p)
  else
    d ++ [(k, v)]

/-- `dict.update`: fold `dictInsert` over the new pairs in order. -/
def dictUpdate (d new : List (String × OptVal)) : List (String × OptVal) :=
  new.foldl (fun acc p => dictInsert acc p.1 p.2) d

/-- The three base flags of `default_xla_options`. -/
def baseOptions : List (String × OptVal) :=
  [("xla_tpu_spmd_rng_bit_generator_unsafe", .b true),
   ("xla_tpu_enable_latency_hiding_scheduler", .s "true"),
   ("xla_tpu_perform_spmd_cse_prevention", .s "false")]

/-- The overlay merged when the inferred version is `v4`. -/
def v4Options : List (String × OptVal) :=
  [("xla_enable_async_all_gather", .s "true"),
   ("xla_enable_async_collective_permute", .s "true")]

/-- The overlay merged when the inferred version is `v6e`. -/
def v6eOptions : List (String × OptVal) :=
  [("xla_tpu_scoped_vmem_limit_kib", .s "98304"),
   ("xla_tpu_enable_async_collective_fusion", .s "true"),
   ("xla_tpu_enable_async_collective_fusion_fuse_all_gather", .s "true"),
   ("xla_tpu_enable_async_collective_fusion_multiple_steps", .s "true"),
   ("xla_tpu_overlap_compute_collective_tc", .s "true"),
   ("xla_enable_async_all_gather", .s "true"),
   ("xla_tpu_enable_all_experimental_scheduler_features", .s "true"),
   ("xla_tpu_enable_scheduler_memory_pressure_tracking", .s "ENABLED"),
   ("xla_tpu_host_transfer_overlap_limit", .i 24),
   ("xla_tpu_aggressive_opt_barrier_removal", .s "ENABLED"),
   ("xla_lhs_prioritize_async_depth_over_stall", .s "ENABLED"),
   ("xla_tpu_enable_ag_backward_pipelining", .s "true"),
   ("xla_should_allow_loop_variant_parameter_in_chain", .s "ENABLED"),
   ("xla_should_add_loop_invariant_op_in_chain", .s "ENABLED"),
   ("xla_max_concurrent_host_send_recv", .i 100),
   ("xla_latency_hiding_scheduler_rerun", .i 0)]

/-- The overlay merged when `num_slices > 1`. -/
def multiSliceOptions : List (String × OptVal) :=
  [("xla_tpu_enable_megascale_barrier", .s "true"),
   ("xla_tpu_enable_data_parallel_all_reduce_opt", .s "true"),
   ("xla_tpu_data_parallel_opt_different_sized_ops", .s "true")]

/-- Embedding of `default_xla_options`. -/
def default_xla_options (instance_type : String) (num_slices : Int)
    (backend : String) : Except Err (List (String × OptVal)) :=
  if backend != "tpu" then .error (.notImplemented backend)
  else
    match infer_tpu_type instance_type with
    | .error e => .error e
    | .ok t =>
      match infer_tpu_version t with
      | .error e => .error e
      | .ok version =>
        let options := baseOptions
        let options := if version == "v4" then dictUpdate options v4Options else options
        let options := if version == "v6e" then dictUpdate options v6eOptions else options
        let options := if num_slices > 1 then dictUpdate options multiSliceOptions else options
        .ok options

/-- Rendering of a single option value for `xla_flags_from_options`:
booleans become `1`/`0`, everything else its string form. -/
def renderOptVal : OptVal → String
  | .b true => "1"
  | .b false => "0"
  | .s str => str
  | .i n => toString n

/-- `" ".join`-style concatenation used by `xla_flags_from_options`. -/
def joinSep (sep : String) : List String → String
  | [] => ""
  | [x] => x
  | x :: y :: rest => x ++ sep ++ joinSep sep (y :: rest)

/-- Embedding of `xla_flags_from_options`: one `--key=value` token per
entry, joined with single spaces. -/
def xla_flags_from_options (xla_options : List (String × OptVal)) : String :=
  joinSep " " (xla_options.map (fun kv => "--" ++ kv.1 ++ "=" ++ renderOptVal kv.2))

/-- The spec-side rendering of a single option value, following the
claim's words: booleans become `"1"`/`"0"`, strings are left unchanged,
integers take their decimal form. -/
def specRenderVal : OptVal → String
  | .b bv => if bv then "1" else "0"
  | .s str => str
  | .i n => toString n

/-- The spec-side serializer, following the claim's words: one token
`--<key>=<value>` per entry in order, a single space between
consecutive tokens, empty output for an empty mapping. -/
def specSerializeFlags : List (String × OptVal) → String
  | [] => ""
  | kv :: rest =>
    "--" ++ kv.1 ++ "=" ++ specRenderVal kv.2 ++
      (if rest.isEmpty then "" else " " ++ specSerializeFlags rest)

/-- Shape of strings matched by `v.+-\d+`: a leading `v`, a nonempty run
of non-newline characters, a hyphen, a nonempty run of digits. -/
def VBodyShape (l : List Char) : Prop :=
  ∃ m d, l = 'v' :: (m ++ '-' :: d) ∧ m ≠ [] ∧ (∀ c ∈ m, c ≠ '\n') ∧
    d ≠ [] ∧ (∀ c ∈ d, c.isDigit = true)

/-- Shape of strings matched by the full regex `(tpu-)?v.+-\d+`. -/
def TpuShape (l : List Char) : Prop :=
  VBodyShape l ∨ ∃ r, l = 't' :: 'p' :: 'u' :: '-' :: r ∧ VBodyShape r

/-- The shape the claim asserts is accepted, reading its grammar
literally: any nonempty token, a hyphen, then a nonempty digit run. -/
def AnyBodyShape (l : List Char) : Prop :=
  ∃ m d, l = m ++ '-' :: d ∧ m ≠ [] ∧ d ≠ [] ∧ (∀ c ∈ d, c.isDigit = true)

/-- `(tpu-)?<anything>-<digits>`, the grammar written in the claim. -/
def ClaimC4Shape (l : List Char) : Prop :=
  AnyBodyShape l ∨ ∃ r, l = 't' :: 'p' :: 'u' :: '-' :: r ∧ AnyBodyShape r

/-- The input with one leading `tpu-` removed (truncated to the part
after the optional prefix), used to state that the version token after
the optional prefix must begin with `v`. -/
def bodyAfterTpu : List Char → List Char
  | 't' :: 'p' :: 'u' :: '-' :: r => r
  | l => l

/-- What the claim says `infer_tpu_type` returns: the input with only a
leading `tpu-` prefix removed, the remainder verbatim. -/
def stripLeadingTpu (s : String) : String :=
  match s.data with
  | 't' :: 'p' :: 'u' :: '-' :: rest => ⟨rest⟩
  | _ => s

/-- The amended description of `infer_tpu_type`'s result, written as a
second definition: scan left to right, removing every occurrence of
`tpu-` (testing the occurrence with `isPrefixOf` at each position). -/
def removeTpuSpec : List Char → List Char
  | [] => []
  | c :: r =>
    if ['t', 'p', 'u', '-'].isPrefixOf (c :: r) then removeTpuSpec (r.drop 3)
    else c :: removeTpuSpec r
termination_by l => l.length
decreasing_by
  · simp only [List.length_cons, List.length_drop]
    omega
  · simp only [List.length_cons]
    omega

/-- `restM` decides exactly the `.+-\d+` tail shape (with a possibly
empty `.`-run, since the caller peels off the first mandatory one). -/
theorem restM_iff (l : List Char) :
    restM l = true ↔
      ∃ m d, l = m ++ '-' :: d ∧ (∀ c ∈ m, c ≠ '\n') ∧
        d ≠ [] ∧ (∀ c ∈ d, c.isDigit = true) := by
  induction l with
  | nil =>
    constructor
    · intro h
      simp [restM] at h
    · rintro ⟨m, d, hl, -, -, -⟩
      exact absurd hl.symm (List.append_ne_nil_of_right_ne_nil m (by simp))
  | cons c rest ih =>
    simp only [restM, Bool.or_eq_true, Bool.and_eq_true, beq_iff_eq, bne_iff_ne,
      Bool.not_eq_true', List.isEmpty_eq_false, List.all_eq_true]
    constructor
    · rintro (⟨⟨hc, hne⟩, hdig⟩ | ⟨hc, hm⟩)
      · exact ⟨[], rest, by simp [hc], by simp, hne, hdig⟩
      · obtain ⟨m, d, hl, hmn, hdn, hdig⟩ := ih.mp hm
        exact ⟨c :: m, d, by simp [hl], by
          intro x hx
          rcases List.mem_cons.mp hx with h | h
          · exact h ▸ hc
          · exact hmn x h, hdn, hdig⟩
    · rintro ⟨m, d, hl, hmn, hdn, hdig⟩
      cases m with
      | nil =>
        simp only [List.nil_append, List.cons.injEq] at hl
        exact Or.inl ⟨⟨hl.1, by simp [hl.2, hdn]⟩, by simpa [hl.2] using hdig⟩
      | cons a m2 =>
        simp only [List.cons_append, List.cons.injEq] at hl
        refine Or.inr ⟨hl.1 ▸ hmn a (by simp), ?_⟩
        exact ih.mpr ⟨m2, d, hl.2, fun x hx => hmn x (by simp [hx]), hdn, hdig⟩

/-- `vBodyMatch` decides exactly the `v.+-\d+` full-match shape. -/
theorem vBodyMatch_iff (l : List Char) : vBodyMatch l = true ↔ VBodyShape l := by
  rw [vBodyMatch.eq_def]
  split
  · next c rest =>
    simp only [Bool.and_eq_true, bne_iff_ne]
    constructor
    · rintro ⟨hc, hm⟩
      obtain ⟨m, d, hl, hmn, hdn, hdig⟩ := (restM_iff rest).mp hm
      refine ⟨c :: m, d, by simp [hl], by simp, ?_, hdn, hdig⟩
      intro x hx
      rcases List.mem_cons.mp hx with h | h
      · exact h ▸ hc
      · exact hmn x h
    · rintro ⟨m, d, hl, hm0, hmn, hdn, hdig⟩
      cases m with
      | nil => exact absurd rfl hm0
      | cons a m2 =>
        simp only [List.cons_append, List.cons.injEq] at hl
        obtain ⟨ha, hrest⟩ := hl.2
        refine ⟨ha ▸ hmn a (by simp), ?_⟩
        exact (restM_iff rest).mpr ⟨m2, d, hrest, fun x hx => hmn x (by simp [hx]), hdn, hdig⟩
  · next hno =>
    simp only [Bool.false_eq_true, false_iff]
    rintro ⟨m, d, hl, hm0, -, -, -⟩
    cases m with
    | nil => exact absurd rfl hm0
    | cons a m2 => exact hno a (m2 ++ '-' :: d) (by simp [hl])

/-- The executable matcher decides exactly the `(tpu-)?v.+-\d+` shape. -/
theorem tpuTypeRegexMatch_iff (l : List Char) :
    tpuTypeRegexMatch l = true ↔ TpuShape l := by
  unfold tpuTypeRegexMatch TpuShape
  rw [Bool.or_eq_true, vBodyMatch_iff]
  refine or_congr Iff.rfl ?_
  split
  · next rest =>
    rw [vBodyMatch_iff]
    constructor
    · intro h
      exact ⟨rest, rfl, h⟩
    · rintro ⟨r, heq, hr⟩
      simp only [List.cons.injEq, true_and] at heq
      exact heq ▸ hr
  · next hno =>
    simp only [Bool.false_eq_true, false_iff]
    rintro ⟨r, heq, -⟩
    exact hno r heq

/-- Claim C1: `default_xla_options "v4-8" 1 "tpu"` is exactly the three
base flags followed by the two v4 flags, and none of the v6e or
multi-slice keys occur in it. -/
theorem claim_C1 :
    default_xla_options "v4-8" 1 "tpu" = .ok (baseOptions ++ v4Options) ∧
    ((baseOptions ++ v4Options).map Prod.fst =
      ["xla_tpu_spmd_rng_bit_generator_unsafe",
       "xla_tpu_enable_latency_hiding_scheduler",
       "xla_tpu_perform_spmd_cse_prevention",
       "xla_enable_async_all_gather",
       "xla_enable_async_collective_permute"]) ∧
    (((v6eOptions.map Prod.fst).filter
        (fun k => (baseOptions ++ v4Options).any (fun p => p.1 == k))) =
      ["xla_enable_async_all_gather"]) ∧
    ((multiSliceOptions.map Prod.fst).all
        (fun k => !((baseOptions ++ v4Options).any (fun p => p.1 == k))) = true) := by
  exact ⟨rfl, by decide, by decide, by decide⟩

/-- Claim C2: `default_xla_options "v6e-256" 2 "tpu"` is exactly the
union (in order) of the base flags, the whole v6e overlay and the three
multi-slice flags, and its keys are pairwise distinct, so no key was
overwritten during the merge. -/
theorem claim_C2 :
    default_xla_options "v6e-256" 2 "tpu" =
      .ok (baseOptions ++ v6eOptions ++ multiSliceOptions) ∧
    ((baseOptions ++ v6eOptions ++ multiSliceOptions).map Prod.fst).Nodup ∧
    (multiSliceOptions.map Prod.fst =
      ["xla_tpu_enable_megascale_barrier",
       "xla_tpu_enable_data_parallel_all_reduce_opt",
       "xla_tpu_data_parallel_opt_different_sized_ops"]) ∧
    (multiSliceOptions.map Prod.snd = [OptVal.s "true", OptVal.s "true", OptVal.s "true"]) := by
  exact ⟨rfl, by decide, by decide, by decide⟩

/-- Claim C7: `xla_flags_from_options` agrees with the spec-side
serializer on every mapping, the empty mapping yields the empty string,
and the worked example renders as stated. -/
theorem claim_C7 :
    (∀ opts : List (String × OptVal), xla_flags_from_options opts = specSerializeFlags opts) ∧
    xla_flags_from_options [] = "" ∧
    xla_flags_from_options [("a", .b true), ("b", .s "false"), ("c", .i 5)] =
      "--a=1 --b=false --c=5" := by
  refine ⟨?_, rfl, rfl⟩
  intro opts
  induction opts with
  | nil => rfl
  | cons kv rest ih =>
    have hr : renderOptVal kv.2 = specRenderVal kv.2 := by
      cases kv.2 with
      | b bv => cases bv <;> rfl
      | s str => rfl
      | i n => rfl
    cases rest with
    | nil =>
      simp [xla_flags_from_options, joinSep, specSerializeFlags, hr]
    | cons kv2 rest2 =>
      have hx : xla_flags_from_options (kv :: kv2 :: rest2) =
          ("--" ++ kv.1 ++ "=" ++ renderOptVal kv.2) ++ " " ++
            xla_flags_from_options (kv2 :: rest2) := rfl
      rw [hx, ih, hr]
      simp [specSerializeFlags, String.append_assoc]

/-- Claim C4, counterexample: `"x4-8"` is nonempty and has the shape
`(tpu-)?<anything>-<digits>` stated by the claim, yet `infer_tpu_type`
rejects it (the regex also requires the token to start with `v`). -/
theorem claim_C4_counterexample :
    ("x4-8" : String) ≠ "" ∧ ClaimC4Shape ("x4-8" : String).data ∧
    infer_tpu_type "x4-8" = .error (.notTpu "Invalid TPU instance: x4-8") := by
  refine ⟨by decide, Or.inl ⟨['x', '4'], ['8'], rfl, by simp, by simp, by decide⟩, rfl⟩

/-- Claim C4, amended: `infer_tpu_type` succeeds exactly on strings of
the shape `(tpu-)?v<non-newline-chars>-<digits>` (the token after the
optional prefix must start with `v` and may not span a newline), and on
every other input it fails with the invalid-descriptor error carrying
the offending string; in particular `""`, `"garbage"` and `"v4"` fail
with that error. -/
theorem claim_C4 :
    (∀ s : String,
      ((∃ t, infer_tpu_type s = .ok t) ↔ TpuShape s.data) ∧
      (infer_tpu_type s = .error (.notTpu ("Invalid TPU instance: " ++ s)) ∨
        ∃ t, infer_tpu_type s = .ok t)) ∧
    infer_tpu_type "" = .error (.notTpu "Invalid TPU instance: ") ∧
    infer_tpu_type "garbage" = .error (.notTpu "Invalid TPU instance: garbage") ∧
    infer_tpu_type "v4" = .error (.notTpu "Invalid TPU instance: v4") := by
  refine ⟨?_, rfl, rfl, rfl⟩
  intro s
  unfold infer_tpu_type
  by_cases hc : (s.data.isEmpty || !(tpuTypeRegexMatch s.data)) = true
  · rw [if_pos hc]
    refine ⟨⟨?_, ?_⟩, Or.inl rfl⟩
    · rintro ⟨t, ht⟩
      cases ht
    · intro hsh
      have hm : tpuTypeRegexMatch s.data = true := (tpuTypeRegexMatch_iff _).mpr hsh
      have hne : s.data ≠ [] := by
        intro h0
        rw [h0] at hm
        simp [tpuTypeRegexMatch, vBodyMatch] at hm
      rw [hm, List.isEmpty_eq_false.mpr hne] at hc
      simp at hc
  · rw [if_neg hc]
    simp only [Bool.or_eq_true, Bool.not_eq_true', not_or, Bool.not_eq_true,
      Bool.not_eq_false] at hc
    exact ⟨⟨fun _ => (tpuTypeRegexMatch_iff _).mp hc.2, fun _ => ⟨_, rfl⟩⟩,
      Or.inr ⟨_, rfl⟩⟩

/-- Any string the regex accepts starts with `v` once an optional
leading `tpu-` is peeled off. -/
theorem head_v_of_tpuMatch (l : List Char) (h : tpuTypeRegexMatch l = true) :
    (bodyAfterTpu l).head? = some 'v' := by
  rcases (tpuTypeRegexMatch_iff l).mp h with hv | ⟨r, hl, hr⟩
  · obtain ⟨m, d, heq, -, -, -, -⟩ := hv
    subst heq
    rfl
  · subst hl
    obtain ⟨m, d, heq, -, -, -, -⟩ := hr
    subst heq
    rfl

/-- Claim C10: whenever the token after the optional `tpu-` prefix does
not start with `v`, `infer_tpu_type` rejects the input with the
invalid-descriptor error, even for inputs shaped `<anything>-<digits>`
such as `"x4-8"` and `"tpu-x4-8"`. -/
theorem claim_C10 :
    (∀ s : String, (bodyAfterTpu s.data).head? ≠ some 'v' →
      infer_tpu_type s = .error (.notTpu ("Invalid TPU instance: " ++ s))) ∧
    infer_tpu_type "x4-8" = .error (.notTpu "Invalid TPU instance: x4-8") ∧
    infer_tpu_type "tpu-x4-8" = .error (.notTpu "Invalid TPU instance: tpu-x4-8") := by
  refine ⟨?_, rfl, rfl⟩
  intro s h
  have hm : tpuTypeRegexMatch s.data = false := by
    by_contra hx
    exact h (head_v_of_tpuMatch s.data (Bool.of_not_eq_false hx))
  unfold infer_tpu_type
  rw [if_pos (by rw [hm]; simp)]

/-- Witness for C10: a fresh rejected input whose token starts with `y`. -/
theorem claim_C10_witness :
    infer_tpu_type "y9-9" = .error (.notTpu "Invalid TPU instance: y9-9") :=
  claim_C10.1 "y9-9" (by decide)

/-- The source scanner and the spec-side scanner written with
`isPrefixOf` compute the same function. -/
theorem pyReplaceTpu_eq_removeTpuSpec (l : List Char) :
    pyReplaceTpu l = removeTpuSpec l := by
  suffices h : ∀ n (l : List Char), l.length = n → pyReplaceTpu l = removeTpuSpec l from
    h l.length l rfl
  intro n
  induction n using Nat.strong_induction_on with
  | _ n ih =>
    intro l hn
    subst hn
    cases l with
    | nil => simp [pyReplaceTpu, removeTpuSpec]
    | cons c r =>
      by_cases hp : ['t', 'p', 'u', '-'].isPrefixOf (c :: r)
      · obtain ⟨rest, hrest⟩ := List.isPrefixOf_iff_prefix.mp hp
        simp only [List.cons_append, List.nil_append, List.cons.injEq] at hrest
        obtain ⟨hc, hr⟩ := hrest
        subst hc
        subst hr
        rw [removeTpuSpec, if_pos hp]
        exact ih rest.length (by simp only [List.length_cons]; omega) rest rfl
      · have hL : pyReplaceTpu (c :: r) = c :: pyReplaceTpu r := by
          refine pyReplaceTpu.eq_2 c r ?_
          intro r1 hc hr
          subst hc
          subst hr
          exact hp (by simp [List.isPrefixOf])
        have hR : removeTpuSpec (c :: r) = c :: removeTpuSpec r := by
          rw [removeTpuSpec, if_neg hp]
        rw [hL, hR, ih r.length (by simp only [List.length_cons]; omega) r rfl]

/-- Claim C5, counterexample: `"vtpu-4-8"` is accepted (the regex reads
`tpu-4` as the `.+` run), has no leading `tpu-` prefix, yet the result
`"v4-8"` is not the input: `replace` also removed the interior `tpu-`. -/
theorem claim_C5_counterexample :
    infer_tpu_type "vtpu-4-8" = .ok "v4-8" ∧
    stripLeadingTpu "vtpu-4-8" = "vtpu-4-8" ∧
    ("v4-8" : String) ≠ "vtpu-4-8" := by
  exact ⟨rfl, rfl, by decide⟩

/-- Claim C5, amended: on success the result is the input with every
occurrence of the substring `tpu-` removed in one left-to-right scan
(not only a leading prefix); the examples still hold:
`"tpu-v5p-2048"` maps to `"v5p-2048"` and `"v4-8"` to itself. -/
theorem claim_C5 :
    (∀ s t, infer_tpu_type s = .ok t → t = ⟨removeTpuSpec s.data⟩) ∧
    infer_tpu_type "tpu-v5p-2048" = .ok "v5p-2048" ∧
    infer_tpu_type "v4-8" = .ok "v4-8" := by
  refine ⟨?_, rfl, rfl⟩
  intro s t h
  unfold infer_tpu_type at h
  by_cases hc : (s.data.isEmpty || !(tpuTypeRegexMatch s.data)) = true
  · rw [if_pos hc] at h
    cases h
  · rw [if_neg hc] at h
    cases h
    exact congrArg String.mk (pyReplaceTpu_eq_removeTpuSpec s.data)

/-- Witness for C5's amended theorem at `"tpu-v5p-2048"`. -/
theorem claim_C5_witness :
    ("v5p-2048" : String) = ⟨removeTpuSpec ("tpu-v5p-2048" : String).data⟩ :=
  claim_C5.1 "tpu-v5p-2048" "v5p-2048" rfl

/-- `beforeLastHyphen` really is "the part before the last hyphen": it
equals the reversal-based computation that drops the trailing
non-hyphen run and the hyphen itself, and is the identity when no
hyphen occurs. -/
theorem beforeLastHyphen_eq_dropLast (l : List Char) :
    beforeLastHyphen l =
      if '-' ∈ l then ((l.reverse.dropWhile (fun x => x != '-')).drop 1).reverse
      else l := by
  induction l with
  | nil => simp [beforeLastHyphen]
  | cons c rest ih =>
    rw [beforeLastHyphen]
    by_cases hrc : rest.contains '-' = true
    · have hmem : '-' ∈ rest := List.mem_of_elem_eq_true hrc
      have hne : rest.reverse.dropWhile (fun x => x != '-') ≠ [] := by
        intro h0
        have := (List.dropWhile_eq_nil_iff.mp h0) '-' (by simpa using hmem)
        simp at this
      rw [if_pos hrc, if_pos (by simp [hmem]), List.reverse_cons,
        List.dropWhile_append, if_neg (by simpa using hne),
        List.drop_append_of_le_length (by
          rcases List.exists_cons_of_ne_nil hne with ⟨a, as, ha⟩
          simp [ha]),
        List.reverse_append, ih, if_pos hmem]
      simp
    · have hnm : '-' ∉ rest := fun hmem => hrc (List.elem_eq_true_of_mem hmem)
      have hall : rest.reverse.dropWhile (fun x => x != '-') = [] :=
        List.dropWhile_eq_nil_iff.mpr (by
          intro x hx
          have : x ∈ rest := by simpa using hx
          simp [bne_iff_ne]
          exact fun he => hnm (he ▸ this))
      rw [if_neg hrc]
      by_cases hcd : c = '-'
      · subst hcd
        rw [if_pos rfl, if_pos (by simp), List.reverse_cons,
          List.dropWhile_append, if_pos (by simp [hall])]
        simp
      · rw [if_neg hcd, if_neg (by
          simp only [List.mem_cons, not_or]
          exact ⟨fun h => hcd h.symm, hnm⟩)]

/-- If `infer_tpu_version` succeeds, the version it returns is a member
of `_TPU_VERSIONS`. -/
theorem infer_tpu_version_mem (s v : String) (h : infer_tpu_version s = .ok v) :
    v ∈ _TPU_VERSIONS := by
  unfold infer_tpu_version at h
  cases h1 : infer_tpu_type s with
  | error e =>
    rw [h1] at h
    cases h
  | ok t =>
    rw [h1] at h
    simp only at h
    by_cases hc : _TPU_VERSIONS.contains (⟨beforeLastHyphen t.data⟩ : String) = true
    · rw [if_pos hc] at h
      cases h
      exact List.mem_of_elem_eq_true hc
    · rw [if_neg hc] at h
      cases h

/-- Claim C6: `infer_tpu_version` propagates `infer_tpu_type`'s
validation failures unchanged; on a validated token it splits at the
last hyphen (`beforeLastHyphen`, shown equal to the drop-trailing-run
computation), accepts exactly the five enumerated versions, and
otherwise fails with a value error carrying the parsed version and the
whole enumeration; `"v7-8"` fails that way and `"v5p-2048"` yields
`"v5p"`. -/
theorem claim_C6 :
    (∀ l : List Char, beforeLastHyphen l =
      if '-' ∈ l then ((l.reverse.dropWhile (fun x => x != '-')).drop 1).reverse
      else l) ∧
    (∀ s e, infer_tpu_type s = .error e → infer_tpu_version s = .error e) ∧
    (∀ s t, infer_tpu_type s = .ok t →
      ((⟨beforeLastHyphen t.data⟩ : String) ∈ _TPU_VERSIONS →
        infer_tpu_version s = .ok ⟨beforeLastHyphen t.data⟩) ∧
      ((⟨beforeLastHyphen t.data⟩ : String) ∉ _TPU_VERSIONS →
        infer_tpu_version s = .error (.valueError ("Unknown TPU version " ++
          (⟨beforeLastHyphen t.data⟩ : String) ++ ". Expected one of " ++
          pyTupleRepr _TPU_VERSIONS)))) ∧
    infer_tpu_version "v7-8" = .error (.valueError ("Unknown TPU version v7" ++
      ". Expected one of " ++ pyTupleRepr _TPU_VERSIONS)) ∧
    infer_tpu_version "v5p-2048" = .ok "v5p" := by
  refine ⟨beforeLastHyphen_eq_dropLast, ?_, ?_, rfl, rfl⟩
  · intro s e h
    unfold infer_tpu_version
    rw [h]
  · intro s t h
    unfold infer_tpu_version
    rw [h]
    simp only
    constructor
    · intro hmem
      rw [if_pos (List.elem_eq_true_of_mem hmem)]
    · intro hnot
      rw [if_neg (fun hc => hnot (List.mem_of_elem_eq_true hc))]

/-- Witness for C6 at `"tpu-v4-8"`, whose normalized token is `"v4-8"`. -/
theorem claim_C6_witness : infer_tpu_version "tpu-v4-8" = .ok "v4" :=
  (claim_C6.2.2.1 "tpu-v4-8" "v4-8" rfl).1 (by decide)

/-- Claim C3: any backend other than `"tpu"` makes `default_xla_options`
fail with `NotImplementedError(backend)`, for every instance type and
slice count (the instance type is never parsed). -/
theorem claim_C3 (instance_type : String) (num_slices : Int) (backend : String)
    (h : backend ≠ "tpu") :
    default_xla_options instance_type num_slices backend =
      .error (.notImplemented backend) := by
  unfold default_xla_options
  rw [if_pos]
  simpa using h

/-- Witness for C3 at `backend = "gpu"` with an invalid instance type. -/
theorem claim_C3_witness :
    default_xla_options "garbage" 0 "gpu" = .error (.notImplemented "gpu") :=
  claim_C3 "garbage" 0 "gpu" (by decide)

/-- Claim C8: when both the `tpu-`-prefixed and the bare form of a
descriptor body are accepted, `infer_tpu_type` gives identical results
on both. -/
theorem claim_C8 (body : String)
    (h1 : ∃ t, infer_tpu_type ("tpu-" ++ body) = .ok t)
    (h2 : ∃ t, infer_tpu_type body = .ok t) :
    infer_tpu_type ("tpu-" ++ body) = infer_tpu_type body := by
  obtain ⟨t1, h1⟩ := h1
  obtain ⟨t2, h2⟩ := h2
  have form : ∀ s t : String, infer_tpu_type s = .ok t →
      infer_tpu_type s = .ok ⟨pyReplaceTpu s.data⟩ := by
    intro s t h
    unfold infer_tpu_type at h ⊢
    by_cases hc : (s.data.isEmpty || !(tpuTypeRegexMatch s.data)) = true
    · rw [if_pos hc] at h
      cases h
    · rw [if_neg hc]
  rw [form _ _ h1, form _ _ h2]
  have hdata : ("tpu-" ++ body).data = 't' :: 'p' :: 'u' :: '-' :: body.data := by
    rw [String.data_append]
    rfl
  rw [hdata]
  rfl

/-- Witness for C8 at `body = "v4-8"`. -/
theorem claim_C8_witness :
    infer_tpu_type ("tpu-" ++ "v4-8") = infer_tpu_type "v4-8" :=
  claim_C8 "v4-8" ⟨"v4-8", rfl⟩ ⟨"v4-8", rfl⟩

/-- Claim C9: every `num_slices ≤ 1` (including `0` and negatives)
behaves exactly like `num_slices = 1`, and on every successful call the
three multi-slice keys are all present exactly when `num_slices > 1`
and all absent exactly when `num_slices ≤ 1`. -/
theorem claim_C9 (instance_type : String) (num_slices : Int) :
    (num_slices ≤ 1 →
      default_xla_options instance_type num_slices "tpu" =
        default_xla_options instance_type 1 "tpu") ∧
    (∀ opts, default_xla_options instance_type num_slices "tpu" = .ok opts →
      (((multiSliceOptions.map Prod.fst).all
          (fun k => opts.any (fun p => p.1 == k)) = true) ↔ 1 < num_slices) ∧
      (((multiSliceOptions.map Prod.fst).all
          (fun k => !(opts.any (fun p => p.1 == k))) = true) ↔ num_slices ≤ 1)) := by
  constructor
  · intro hns
    unfold default_xla_options
    cases h1 : infer_tpu_type instance_type with
    | error e => rfl
    | ok t =>
      dsimp only
      cases h2 : infer_tpu_version t with
      | error e => rfl
      | ok version =>
        dsimp only
        rw [if_neg (by omega : ¬ num_slices > 1), if_neg (by omega : ¬ (1 : Int) > 1)]
  · intro opts h
    unfold default_xla_options at h
    rw [if_neg (by simp)] at h
    split at h
    · cases h
    · next x t heq1 =>
      split at h
      · cases h
      · next y version h2 =>
        dsimp only at h
        have hver : version ∈ _TPU_VERSIONS := infer_tpu_version_mem t version h2
        by_cases hns : num_slices > 1
        · rw [if_pos hns] at h
          cases h
          fin_cases hver <;>
            exact ⟨⟨fun _ => hns, fun _ => by decide⟩,
              ⟨fun hx => absurd hx (by decide), fun hle => absurd hns (by omega)⟩⟩
        · rw [if_neg hns] at h
          cases h
          fin_cases hver <;>
            exact ⟨⟨fun hx => absurd hx (by decide), fun h1lt => absurd h1lt hns⟩,
              ⟨fun _ => by omega, fun _ => by decide⟩⟩

/-- Witness for C9: `num_slices = 0` behaves like `num_slices = 1`. -/
theorem claim_C9_witness :
    default_xla_options "v4-8" 0 "tpu" = default_xla_options "v4-8" 1 "tpu" :=
  (claim_C9 "v4-8" 0).1 (by decide)

end CompilerOptions
